import Mathlib

/-!
Verification of the spin-variables tool (src/src/main.rs, src/src/env_provider.rs)
against its natural-language specification.

The manifest data model, the component pre-filtering, the expansion batch loop
and the command control flow are embedded directly from the Rust source.
The external spin_expressions crate (provider-chain resolver and placeholder
template engine) is not part of this repository; its behaviour is modelled
from the specification (sections 4.3 and 4.4), with each such definition
carrying a doc comment starting with the words Modelled from the spec.
Rust iterator pipelines over ordered maps (IndexMap) are embedded as Lean
lists of pairs, preserving iteration order.
-/

/-- Environment of the process: an association list from environment-variable
names to their values, embedding the subset of std::env that the tool reads. -/
def Env : Type := List (String × String)

/-- Embeds Rust str::to_ascii_uppercase as a character-wise map; Lean's
Char.toUpper uppercases exactly the ASCII range, matching the Rust
primitive. -/
def to_ascii_uppercase (s : String) : String :=
  String.mk (s.data.map Char.toUpper)

/-- Embeds the environment variable name computation from
src/src/env_provider.rs line 7: the fixed namespace token SPIN_VARIABLE,
an underscore, and the ASCII-uppercased variable name. -/
def envVarName (key : String) : String :=
  "SPIN_VARIABLE_" ++ to_ascii_uppercase key

/-- Embeds EnvProvider::get (src/src/env_provider.rs lines 6-9): look up the
computed name in the environment; absence yields none, which is not an error. -/
def EnvProvider.get (env : Env) (key : String) : Option String :=
  List.lookup (envVarName key) env

/-- Embeds struct VariableInfo (src/src/main.rs lines 180-185). -/
structure VariableInfo where
  name : String
  default_value : Option String
  required : Bool
  secret : Bool
deriving Repr, DecidableEq

/-- Embeds spin_locked_app::locked::Variable as used by this tool: the
declared default and the secret flag. -/
structure LockedVariable where
  default : Option String
  secret : Bool
deriving Repr, DecidableEq

/-- Embeds locked_variable (src/src/main.rs lines 98-103). -/
def locked_variable (v : VariableInfo) : LockedVariable :=
  { default := v.default_value, secret := v.secret }

/-- Embeds the per-variable fields of the v2 manifest schema that
variables_from_toml reads. -/
structure TomlVariable where
  default : Option String
  required : Bool
  secret : Bool
deriving Repr, DecidableEq

/-- Embeds variables_from_toml (src/src/main.rs lines 114-121): a map over the
manifest's ordered variable table, copying each field. -/
def variables_from_toml (vars : List (String × TomlVariable)) : List VariableInfo :=
  vars.map fun nv =>
    { name := nv.1
      default_value := nv.2.default
      required := nv.2.required
      secret := nv.2.secret }

/-- Embeds variables_from_registry_app (src/src/main.rs lines 123-130):
required is computed as absence of a default. -/
def variables_from_registry_app (vars : List (String × LockedVariable)) : List VariableInfo :=
  vars.map fun nv =>
    { name := nv.1
      required := nv.2.default.isNone
      default_value := nv.2.default
      secret := nv.2.secret }

/-- Modelled from the spec: the prepared resolver of the external
spin_expressions crate, built in prepare_resolver (src/src/main.rs lines
90-96) from the declared variables (with their locked defaults) plus the
EnvProvider. Per spec section 4.3 a lookup queries providers in fixed
precedence: the environment-override provider first (embedded from
src/src/env_provider.rs), then the declared default; an undeclared key or a
declared key with neither override nor default resolves to none (a
per-lookup missing-value error). -/
def resolveVar (env : Env) (vars : List VariableInfo) (key : String) : Option String :=
  match vars.find? (fun w => w.name == key) with
  | none => none
  | some v =>
    match EnvProvider.get env key with
    | some value => some value
    | none => (locked_variable v).default

/-- One parsed element of a template: a literal character or a placeholder
referencing a key. -/
inductive TPart where
  | litc (c : Char)
  | var (k : String)
deriving Repr, DecidableEq

/-- Modelled from the spec: the character class of a bare key token in the
placeholder grammar of spec section 4.4 (spin_expressions is external to the
repository). -/
def isKeyChar (c : Char) : Bool :=
  c.isAlphanum || c = '_' || c = '-' || c = '.'

/-- Modelled from the spec: parsing the body of a placeholder after the
double-open-brace (spec section 4.4): optional whitespace, a nonempty bare
key token, optional whitespace, then the double-close-brace; anything else
is a template syntax error. Returns the key and the characters remaining
after the close delimiter. -/
def parsePlaceholder (l : List Char) : Option (String × List Char) :=
  let l1 := l.dropWhile Char.isWhitespace
  let key := l1.takeWhile isKeyChar
  let l2 := (l1.dropWhile isKeyChar).dropWhile Char.isWhitespace
  if key.isEmpty then none
  else
    match l2 with
    | '}' :: '}' :: rest => some (String.mk key, rest)
    | _ => none

/-- Modelled from the spec: the template parser of spec section 4.4, scanning
the raw text for double-open-brace markers; every other character is a
literal. The fuel argument bounds recursion and is always given as more than
the length of the input, which suffices because every step consumes at least
one character. -/
def parseParts : Nat → List Char → Option (List TPart)
  | 0, _ => none
  | _ + 1, [] => some []
  | fuel + 1, c :: rest =>
    if c = '{' ∧ rest.head? = some '{' then
      match parsePlaceholder rest.tail with
      | none => none
      | some kr => (parseParts fuel kr.2).map (fun ps => TPart.var kr.1 :: ps)
    else
      (parseParts fuel rest).map (fun ps => TPart.litc c :: ps)

/-- Modelled from the spec: spin_expressions Template construction as used by
expand_template (src/src/main.rs line 110); fails on a malformed placeholder. -/
def Template.new (raw : String) : Option (List TPart) :=
  parseParts (raw.data.length + 1) raw.data

/-- Modelled from the spec: evaluation of parsed template parts against a
resolver (spec section 4.4); a key the resolver cannot supply makes the
whole single-field expansion fail. -/
def resolveParts (resolve : String → Option String) : List TPart → Option (List Char)
  | [] => some []
  | TPart.litc c :: rest => (resolveParts resolve rest).map (fun cs => c :: cs)
  | TPart.var k :: rest =>
    match resolve k with
    | none => none
    | some value => (resolveParts resolve rest).map (fun cs => value.data ++ cs)

/-- Modelled from the spec: spin_expressions resolve_template as called in
expand_template (src/src/main.rs line 111). -/
def resolve_template (resolve : String → Option String) (parts : List TPart) : Option String :=
  (resolveParts resolve parts).map String.mk

/-- Embeds expand_template (src/src/main.rs lines 109-112): parse the raw
text, then resolve it; either step failing fails the field. -/
def expand_template (resolve : String → Option String) (template : String) : Option String :=
  (Template.new template).bind (resolve_template resolve)

/-- Embeds expand_template_or_error (src/src/main.rs lines 105-107): a failed
expansion is replaced by the fixed marker string (spelled exactly as in the
source). -/
def expand_template_or_error (resolve : String → Option String) (template : String) : String :=
  (expand_template resolve template).getD "Evalutation error!"

/-- Embeds struct ComponentInfo (src/src/main.rs lines 187-191). -/
structure ComponentInfo where
  id : String
  allowed_outbound_hosts : List String
  vars : List (String × String)
deriving Repr, DecidableEq

/-- Embeds ComponentInfo::has_expandables (src/src/main.rs lines 194-196). -/
def ComponentInfo.has_expandables (c : ComponentInfo) : Bool :=
  !c.allowed_outbound_hosts.isEmpty || !c.vars.isEmpty

/-- Embeds ComponentInfo::id_or_empty (src/src/main.rs lines 198-204). -/
def ComponentInfo.id_or_empty (c : ComponentInfo) (id_please : Bool) : String :=
  if id_please then c.id else ""

/-- The substring test for the placeholder open delimiter, written on the
character list: true when two consecutive open braces occur. -/
def hasOpenDelim : List Char → Bool
  | [] => false
  | c :: rest => (c = '{' && rest.head? = some '{') || hasOpenDelim rest

/-- Embeds the Rust test h.contains of the two-open-brace delimiter used in
components_from_toml (src/src/main.rs line 263) and
components_from_registry_app (line 281). -/
def containsOpen (s : String) : Bool :=
  hasOpenDelim s.data

/-- Embeds the component fields of the v2 manifest schema that
components_from_toml reads. -/
structure TomlComponent where
  allowed_outbound_hosts : List String
  vars : List (String × String)
deriving Repr, DecidableEq

/-- Embeds the per-component body of the map in components_from_toml
(src/src/main.rs lines 261-264): outbound hosts are kept only when they
contain the open delimiter; config variables are copied unfiltered. -/
def toml_component_info (idc : String × TomlComponent) : ComponentInfo :=
  { id := idc.1
    allowed_outbound_hosts := idc.2.allowed_outbound_hosts.filter containsOpen
    vars := idc.2.vars }

/-- Embeds components_from_toml (src/src/main.rs lines 260-266): map then
retain only components with something to expand. -/
def components_from_toml (components : List (String × TomlComponent)) : List ComponentInfo :=
  (components.map toml_component_info).filter ComponentInfo.has_expandables

/-- Embeds the fields of a locked component that
components_from_registry_app reads: the allowed_outbound_hosts metadata
entry is an optional JSON array whose elements may or may not be strings,
and the config table is an ordered string map. -/
structure LockedComponent where
  id : String
  metadata_allowed_outbound_hosts : Option (List (Option String))
  config : List (String × String)
deriving Repr, DecidableEq

/-- Embeds the per-component body of the map in components_from_registry_app
(src/src/main.rs lines 269-283): missing or non-array metadata yields the
empty list, non-string elements are dropped, and only entries containing the
open delimiter are kept; config entries are copied unfiltered. -/
def registry_component_info (c : LockedComponent) : ComponentInfo :=
  { id := c.id
    allowed_outbound_hosts :=
      (((c.metadata_allowed_outbound_hosts.getD []).filterMap id).filter containsOpen)
    vars := c.config }

/-- Embeds components_from_registry_app (src/src/main.rs lines 268-285). -/
def components_from_registry_app (cs : List LockedComponent) : List ComponentInfo :=
  (cs.map registry_component_info).filter ComponentInfo.has_expandables

/-- Embeds the row-emitting loops of expand_manifest_items
(src/src/main.rs lines 72-84) over a list of label-template items: each row
carries the component id cell (the id on the first row only), the item label
and the independently computed expansion. -/
def addRows (resolve : String → Option String) (c : ComponentInfo) :
    Bool → List (String × String) → List (String × String × String)
  | _, [] => []
  | is_first_row, it :: rest =>
    (c.id_or_empty is_first_row, it.1, expand_template_or_error resolve it.2)
      :: addRows resolve c false rest

/-- The items a component contributes to the expansion table, in source
order: config variables first (label and template from the pair), then
outbound hosts (the host text is both label and template), embedding the
two consecutive loops of expand_manifest_items (src/src/main.rs lines
74-83). -/
def componentItems (c : ComponentInfo) : List (String × String) :=
  c.vars ++ c.allowed_outbound_hosts.map (fun h => (h, h))

/-- All table rows contributed by one component. -/
def componentRows (resolve : String → Option String) (c : ComponentInfo) :
    List (String × String × String) :=
  addRows resolve c true (componentItems c)

/-- Embeds expand_manifest_items (src/src/main.rs lines 67-87) as the list of
rows of the produced table, in component order. -/
def expand_manifest_items (resolve : String → Option String)
    (components : List ComponentInfo) : List (String × String × String) :=
  (components.map (componentRows resolve)).flatten

/-- Embeds enum OutputFormat (src/src/main.rs lines 287-291). -/
inductive OutputFormat where
  | table
  | bash
deriving Repr, DecidableEq

/-- The observable outcome of a successful run: either the no-variables
message, the variable listing alone, or the listing together with the
expansion preview table. -/
inductive RunOutput where
  | noVariables
  | variablesOnly (vs : List VariableInfo)
  | variablesWithExpansion (vs : List VariableInfo)
      (rows : List (String × String × String))
deriving Repr, DecidableEq

/-- True exactly on the variant that carries an expansion preview. -/
def RunOutput.hasExpansion : RunOutput → Bool
  | RunOutput.variablesWithExpansion _ _ => true
  | _ => false

/-- Embeds VariablesCommand::run (src/src/main.rs lines 34-58) after the
manifest has been acquired: with no variables only the message is printed;
otherwise the listing is printed, and only under the table output format
with a nonempty retained component list is the resolver built and the
expansion preview computed. The resolver argument of the preview is the one
prepared by prepare_resolver (lines 90-96) from these variables and the
process environment. -/
def run (output : OutputFormat) (env : Env) (vs : List VariableInfo)
    (components : List ComponentInfo) : RunOutput :=
  if vs.isEmpty then RunOutput.noVariables
  else
    match output with
    | OutputFormat.table =>
      if components.isEmpty then RunOutput.variablesOnly vs
      else
        RunOutput.variablesWithExpansion vs
          (expand_manifest_items (resolveVar env vs) components)
    | OutputFormat.bash => RunOutput.variablesOnly vs

/-- C5: for every variable declaration derived from a registry-loaded
(locked) application, required is true exactly when the declaration's
default is absent. -/
theorem c5_registry_required_iff_no_default (vars : List (String × LockedVariable))
    (v : VariableInfo) (hv : v ∈ variables_from_registry_app vars) :
    v.required = true ↔ v.default_value = none := by
  simp only [variables_from_registry_app, List.mem_map] at hv
  obtain ⟨nv, _, rfl⟩ := hv
  simp [Option.isNone_iff_eq_none]

/-- Witness for C5 at a concrete registry variable table. -/
theorem c5_registry_required_iff_no_default_witness :
    (⟨"api_key", none, true, true⟩ : VariableInfo).required = true
      ↔ (⟨"api_key", none, true, true⟩ : VariableInfo).default_value = none :=
  c5_registry_required_iff_no_default [("api_key", ⟨none, true⟩)]
    ⟨"api_key", none, true, true⟩ (by decide)

/-- C1: resolution of a declared variable consults the environment variable
whose name is the namespace token, an underscore and the uppercased variable
name; when that environment variable is set its value wins regardless of the
declared default, and when the environment provider yields nothing,
resolution falls through to the declared default. -/
theorem c1_env_override_wins (env : Env) (vars : List VariableInfo)
    (v : VariableInfo) (value : String)
    (hdecl : vars.find? (fun w => w.name == v.name) = some v)
    (henv : List.lookup ("SPIN_VARIABLE_" ++ to_ascii_uppercase v.name) env = some value) :
    envVarName v.name = "SPIN_VARIABLE_" ++ to_ascii_uppercase v.name
      ∧ resolveVar env vars v.name = some value
      ∧ ∀ env2 : Env, EnvProvider.get env2 v.name = none →
          resolveVar env2 vars v.name = v.default_value := by
  refine ⟨rfl, ?_, ?_⟩
  · simp [resolveVar, hdecl, EnvProvider.get, envVarName, henv]
  · intro env2 h2
    simp [resolveVar, hdecl, h2, locked_variable]

/-- Witness for C1: variable db_url with default, override set in the
environment under SPIN_VARIABLE_DB_URL. -/
theorem c1_env_override_wins_witness :
    resolveVar [("SPIN_VARIABLE_DB_URL", "ovr")]
        [⟨"db_url", some "dflt", false, false⟩] "db_url" = some "ovr" :=
  (c1_env_override_wins [("SPIN_VARIABLE_DB_URL", "ovr")]
    [⟨"db_url", some "dflt", false, false⟩] ⟨"db_url", some "dflt", false, false⟩
    "ovr" rfl (by decide)).2.1

/-- C2: a declared variable with a declared default and no environment
override resolves to the declared default. -/
theorem c2_default_when_no_override (env : Env) (vars : List VariableInfo)
    (v : VariableInfo) (d : String)
    (hdecl : vars.find? (fun w => w.name == v.name) = some v)
    (hdef : v.default_value = some d)
    (henv : EnvProvider.get env v.name = none) :
    resolveVar env vars v.name = some d := by
  simp [resolveVar, hdecl, henv, locked_variable, hdef]

/-- Witness for C2: empty environment, variable db_url with default. -/
theorem c2_default_when_no_override_witness :
    resolveVar [] [⟨"db_url", some "dflt", false, false⟩] "db_url" = some "dflt" :=
  c2_default_when_no_override [] [⟨"db_url", some "dflt", false, false⟩]
    ⟨"db_url", some "dflt", false, false⟩ "dflt" rfl rfl (by decide)

/-- A string whose character list has no two consecutive open braces never
enters the placeholder branch of the parser: it parses to its characters as
literals. -/
theorem parseParts_no_open (fuel : Nat) : ∀ l : List Char, l.length < fuel →
    hasOpenDelim l = false → parseParts fuel l = some (l.map TPart.litc) := by
  induction fuel with
  | zero => intro l h _; exact absurd h (Nat.not_lt_zero _)
  | succ fuel ih =>
    intro l hlen hno
    cases l with
    | nil => simp [parseParts]
    | cons c rest =>
      simp only [hasOpenDelim, Bool.or_eq_false_iff, Bool.and_eq_false_iff] at hno
      have hcond : ¬(c = '{' ∧ rest.head? = some '{') := by
        intro hc
        rcases hno.1 with h1 | h1
        · simp [hc.1] at h1
        · simp [hc.2] at h1
      simp only [parseParts, if_neg hcond, ih rest (Nat.lt_of_succ_lt_succ hlen) hno.2]
      rfl

/-- Evaluating a pure-literal part list reproduces the characters. -/
theorem resolveParts_litc (resolve : String → Option String) :
    ∀ l : List Char, resolveParts resolve (l.map TPart.litc) = some l := by
  intro l
  induction l with
  | nil => rfl
  | cons c rest ih => simp [resolveParts, ih]

/-- C4: a raw string containing no placeholder open delimiter parses
successfully to a template of literals, and expanding it against any
resolver returns the original string unchanged. -/
theorem c4_no_placeholder_identity (resolve : String → Option String) (s : String)
    (h : containsOpen s = false) :
    Template.new s = some (s.data.map TPart.litc) ∧
      expand_template resolve s = some s := by
  have hp : Template.new s = some (s.data.map TPart.litc) :=
    parseParts_no_open (s.data.length + 1) s.data (Nat.lt_succ_self _) h
  refine ⟨hp, ?_⟩
  rw [expand_template, hp]
  simp only [Option.some_bind, resolve_template, resolveParts_litc, Option.map_some]
  cases s
  rfl

/-- Witness for C4 at a concrete placeholder-free string. -/
theorem c4_no_placeholder_identity_witness :
    containsOpen "example.com" = false ∧
      expand_template (fun _ => none) "example.com" = some "example.com" :=
  ⟨by decide, (c4_no_placeholder_identity (fun _ => none) "example.com" (by decide)).2⟩

/-- The label and expansion columns of the rows a component contributes are
the pointwise, independent expansion of its items. -/
theorem addRows_map (resolve : String → Option String) (c : ComponentInfo) :
    ∀ (first : Bool) (items : List (String × String)),
      (addRows resolve c first items).map (fun row => (row.2.1, row.2.2))
        = items.map (fun it => (it.1, expand_template_or_error resolve it.2)) := by
  intro first items
  induction items generalizing first with
  | nil => rfl
  | cons it rest ih => simp [addRows, ih]

/-- C3: batch expansion treats every field independently. The label and
value columns of the whole table are exactly the per-item map of the
single-field expansion (so no field is omitted and no field influences
another), a field whose single-field expansion fails shows the fixed error
marker, and a field whose expansion succeeds shows exactly the value it
would produce alone. The batch is a total function: it never fails. -/
theorem c3_batch_isolated (resolve : String → Option String)
    (components : List ComponentInfo) :
    ((expand_manifest_items resolve components).map (fun row => (row.2.1, row.2.2))
        = (components.map (fun c => (componentItems c).map
            (fun it => (it.1, expand_template_or_error resolve it.2)))).flatten)
      ∧ (∀ template : String, expand_template resolve template = none →
          expand_template_or_error resolve template = "Evalutation error!")
      ∧ ∀ (template value : String), expand_template resolve template = some value →
          expand_template_or_error resolve template = value := by
  refine ⟨?_, ?_, ?_⟩
  · rw [expand_manifest_items, List.map_flatten, List.map_map]
    have he : (List.map (fun row : String × String × String => (row.2.1, row.2.2))
          ∘ componentRows resolve)
        = fun c => (componentItems c).map
            (fun it => (it.1, expand_template_or_error resolve it.2)) :=
      funext fun c => addRows_map resolve c true (componentItems c)
    rw [he]
  · intro template h
    simp [expand_template_or_error, h]
  · intro template value h
    simp [expand_template_or_error, h]

/-- Witness for C3: a template referencing an unresolvable key displays the
fixed marker. -/
theorem c3_batch_isolated_witness :
    expand_template_or_error (fun _ => none) "\x7b\x7b x \x7d\x7d" = "Evalutation error!" :=
  (c3_batch_isolated (fun _ => none) []).2.1 "\x7b\x7b x \x7d\x7d" (by decide)

/-- Retention of a mapped manifest component: it survives the
has_expandables filter exactly when some outbound host contains the open
delimiter or it has at least one config variable entry of any content. -/
theorem mem_components_from_toml (comps : List (String × TomlComponent))
    (idc : String × TomlComponent) (hin : idc ∈ comps) :
    toml_component_info idc ∈ components_from_toml comps
      ↔ ((∃ h ∈ idc.2.allowed_outbound_hosts, containsOpen h = true)
          ∨ idc.2.vars ≠ []) := by
  rw [components_from_toml, List.mem_filter]
  constructor
  · rintro ⟨-, hp⟩
    simp only [ComponentInfo.has_expandables, toml_component_info,
      Bool.or_eq_true, Bool.not_eq_true', List.isEmpty_eq_false] at hp
    rcases hp with hp | hp
    · left
      obtain ⟨h, hh⟩ := List.exists_mem_of_ne_nil _ hp
      exact ⟨h, List.mem_of_mem_filter hh, List.of_mem_filter hh⟩
    · right
      exact hp
  · intro hp
    refine ⟨List.mem_map_of_mem _ hin, ?_⟩
    simp only [ComponentInfo.has_expandables, toml_component_info,
      Bool.or_eq_true, Bool.not_eq_true', List.isEmpty_eq_false]
    rcases hp with ⟨h, hmem, htrue⟩ | hp
    · exact Or.inl (List.ne_nil_of_mem (List.mem_filter.mpr ⟨hmem, htrue⟩))
    · exact Or.inr hp

/-- C6 counterexample: a component whose only field is a config variable
entry with no placeholder open delimiter anywhere (hosts empty, the single
config value is the plain text plain) is nevertheless retained for the
expansion phase, refuting retention-only-if-some-field-could-contain-a-
placeholder. -/
theorem c6_counterexample :
    components_from_toml [("comp", ⟨[], [("k", "plain")]⟩)]
        = [⟨"comp", [], [("k", "plain")]⟩]
      ∧ containsOpen "plain" = false
      ∧ (⟨[], [("k", "plain")]⟩ : TomlComponent).allowed_outbound_hosts = [] :=
  ⟨rfl, by decide, rfl⟩

/-- C6 amended: a component descriptor is retained for the expansion phase
exactly when some outbound-host entry contains the placeholder open
delimiter or the component has at least one config variable entry of any
content; the substring pre-filter is applied to outbound-host entries only,
while config entries are retained (and later parsed) regardless of
content. -/
theorem c6_retention_rule (comps : List (String × TomlComponent))
    (idc : String × TomlComponent) (hin : idc ∈ comps) :
    toml_component_info idc ∈ components_from_toml comps
      ↔ ((∃ h ∈ idc.2.allowed_outbound_hosts, containsOpen h = true)
          ∨ idc.2.vars ≠ []) :=
  mem_components_from_toml comps idc hin

/-- Witness for C6 amended: the placeholder-free config-only component is
retained. -/
theorem c6_retention_rule_witness :
    toml_component_info ("comp", ⟨[], [("k", "plain")]⟩)
      ∈ components_from_toml [("comp", ⟨[], [("k", "plain")]⟩)] :=
  (c6_retention_rule [("comp", ⟨[], [("k", "plain")]⟩)]
      ("comp", ⟨[], [("k", "plain")]⟩) (by decide)).mpr
    (Or.inr (by decide))

/-- Every item of the loop input yields a row with that item's label and its
own independent expansion, for some component-id cell. -/
theorem mem_addRows (resolve : String → Option String) (c : ComponentInfo) :
    ∀ (first : Bool) (items : List (String × String)) (it : String × String),
      it ∈ items →
        ∃ cell, (cell, it.1, expand_template_or_error resolve it.2)
          ∈ addRows resolve c first items := by
  intro first items
  induction items generalizing first with
  | nil =>
    intro it h
    exact absurd h (List.not_mem_nil _)
  | cons hd rest ih =>
    intro it h
    rcases List.mem_cons.mp h with h | h
    · subst h
      exact ⟨c.id_or_empty first, List.mem_cons_self _ _⟩
    · obtain ⟨cell, hc⟩ := ih false it h
      exact ⟨cell, List.mem_cons_of_mem _ hc⟩

/-- A row contributed by a retained component is a row of the full table. -/
theorem mem_expand_manifest_items (resolve : String → Option String)
    (cs : List ComponentInfo) (c : ComponentInfo) (hc : c ∈ cs)
    (row : String × String × String) (hrow : row ∈ componentRows resolve c) :
    row ∈ expand_manifest_items resolve cs := by
  rw [expand_manifest_items]
  exact List.mem_flatten.mpr ⟨componentRows resolve c, List.mem_map_of_mem _ hc, hrow⟩

/-- C7: the expansion candidate set. An outbound host without the open
delimiter is excluded from the retained component entirely; an outbound
host with the open delimiter produces an expansion row in the final table;
every config entry, regardless of content, produces an expansion row; and
on the registry path, every host kept in a component likewise contains the
open delimiter. -/
theorem c7_host_prefilter (resolve : String → Option String)
    (comps : List (String × TomlComponent)) (idc : String × TomlComponent)
    (hin : idc ∈ comps) :
    (∀ h : String, containsOpen h = false →
        h ∉ (toml_component_info idc).allowed_outbound_hosts)
      ∧ (∀ h ∈ idc.2.allowed_outbound_hosts, containsOpen h = true →
          ∃ cell, (cell, h, expand_template_or_error resolve h)
            ∈ expand_manifest_items resolve (components_from_toml comps))
      ∧ (∀ kv ∈ idc.2.vars,
          ∃ cell, (cell, kv.1, expand_template_or_error resolve kv.2)
            ∈ expand_manifest_items resolve (components_from_toml comps))
      ∧ ∀ (lc : LockedComponent) (h : String),
          h ∈ (registry_component_info lc).allowed_outbound_hosts →
            containsOpen h = true := by
  refine ⟨?_, ?_, ?_, ?_⟩
  · intro h hfalse hmem
    have := List.of_mem_filter (p := containsOpen) hmem
    rw [hfalse] at this
    exact Bool.false_ne_true this
  · intro h hmem htrue
    have hret : toml_component_info idc ∈ components_from_toml comps :=
      (mem_components_from_toml comps idc hin).mpr (Or.inl ⟨h, hmem, htrue⟩)
    have hitem : ((h, h) : String × String) ∈ componentItems (toml_component_info idc) := by
      refine List.mem_append_right _ ?_
      exact List.mem_map_of_mem _ (List.mem_filter.mpr ⟨hmem, htrue⟩)
    obtain ⟨cell, hrow⟩ :=
      mem_addRows resolve (toml_component_info idc) true
        (componentItems (toml_component_info idc)) (h, h) hitem
    exact ⟨cell, mem_expand_manifest_items resolve _ _ hret _ hrow⟩
  · intro kv hmem
    have hret : toml_component_info idc ∈ components_from_toml comps :=
      (mem_components_from_toml comps idc hin).mpr (Or.inr (List.ne_nil_of_mem hmem))
    have hitem : kv ∈ componentItems (toml_component_info idc) :=
      List.mem_append_left _ hmem
    obtain ⟨cell, hrow⟩ :=
      mem_addRows resolve (toml_component_info idc) true
        (componentItems (toml_component_info idc)) kv hitem
    exact ⟨cell, mem_expand_manifest_items resolve _ _ hret _ hrow⟩
  · intro lc h hmem
    exact List.of_mem_filter hmem

/-- Witness for C7: a component with one placeholder host, one plain host
and one config entry; the plain host is dropped, the others produce rows. -/
theorem c7_host_prefilter_witness :
    ("example.com" ∉ (toml_component_info
        ("comp", ⟨["example.com", "\x7b\x7b h \x7d\x7d"], [("k", "v")]⟩)).allowed_outbound_hosts)
      ∧ (∃ cell, (cell, "\x7b\x7b h \x7d\x7d",
            expand_template_or_error (fun _ => none) "\x7b\x7b h \x7d\x7d")
          ∈ expand_manifest_items (fun _ => none)
              (components_from_toml
                [("comp", ⟨["example.com", "\x7b\x7b h \x7d\x7d"], [("k", "v")]⟩)])) := by
  have hc := c7_host_prefilter (fun _ => none)
    [("comp", ⟨["example.com", "\x7b\x7b h \x7d\x7d"], [("k", "v")]⟩)]
    ("comp", ⟨["example.com", "\x7b\x7b h \x7d\x7d"], [("k", "v")]⟩) (by decide)
  refine ⟨hc.1 "example.com" (by decide), ?_⟩
  exact hc.2.1 "\x7b\x7b h \x7d\x7d" (by decide) (by decide)

/-- The label column of the rows a component contributes is the item labels
in order. -/
theorem addRows_labels (resolve : String → Option String) (c : ComponentInfo) :
    ∀ (first : Bool) (items : List (String × String)),
      (addRows resolve c first items).map (fun row => row.2.1)
        = items.map Prod.fst := by
  intro first items
  induction items generalizing first with
  | nil => rfl
  | cons hd rest ih => simp [addRows, ih]

/-- C8: ordering. The variable list extracted from a manifest carries the
source names in declaration order (a pointwise map, never a sort); within a
component the preview rows carry the config labels in declared order
followed by the outbound hosts in declared order; and the full table is the
concatenation of the per-component rows in component order. -/
theorem c8_order_preserved (resolve : String → Option String)
    (vars : List (String × TomlVariable)) (c : ComponentInfo)
    (components : List ComponentInfo) :
    (variables_from_toml vars).map VariableInfo.name = vars.map Prod.fst
      ∧ (componentRows resolve c).map (fun row => row.2.1)
          = c.vars.map Prod.fst ++ c.allowed_outbound_hosts
      ∧ expand_manifest_items resolve components
          = (components.map (componentRows resolve)).flatten := by
  refine ⟨?_, ?_, rfl⟩
  · simp [variables_from_toml, List.map_map, Function.comp]
  · rw [componentRows, addRows_labels]
    simp only [componentItems, List.map_append, List.map_map]
    rw [show (Prod.fst ∘ fun h : String => (h, h)) = id from funext fun h => rfl,
      List.map_id]

/-- Strips the secret flag from a declaration, leaving everything else. -/
def clearSecret (v : VariableInfo) : VariableInfo :=
  { v with secret := false }

/-- Searching the declaration list commutes with stripping secret flags,
because the search compares names only. -/
theorem find?_map_clearSecret (vars : List VariableInfo) (key : String) :
    (vars.map clearSecret).find? (fun w => w.name == key)
      = (vars.find? (fun w => w.name == key)).map clearSecret := by
  induction vars with
  | nil => rfl
  | cons v rest ih =>
    cases hvk : (v.name == key) with
    | true =>
      have h1 : ((fun w : VariableInfo => w.name == key) (clearSecret v)) = true := by
        simpa [clearSecret] using hvk
      rw [List.map_cons,
        List.find?_cons_of_pos (p := fun w : VariableInfo => w.name == key) _ h1,
        List.find?_cons_of_pos (p := fun w : VariableInfo => w.name == key) _ hvk]
      rfl
    | false =>
      have h1 : ¬((fun w : VariableInfo => w.name == key) (clearSecret v) = true) := by
        simp [clearSecret, hvk]
      rw [List.map_cons,
        List.find?_cons_of_neg (p := fun w : VariableInfo => w.name == key) _ h1,
        List.find?_cons_of_neg (p := fun w : VariableInfo => w.name == key) _ (by simp [hvk]),
        ih]

/-- Resolution is independent of the secret flag: it reads only the name,
the environment and the declared default. -/
theorem resolveVar_clearSecret (env : Env) (vars : List VariableInfo) (key : String) :
    resolveVar env (vars.map clearSecret) key = resolveVar env vars key := by
  rw [resolveVar, resolveVar, find?_map_clearSecret]
  cases hf : vars.find? (fun w => w.name == key) with
  | none => rfl
  | some v =>
    cases hg : EnvProvider.get env key <;>
      simp [hg, locked_variable, clearSecret]

/-- C9: no masking of secrets. Expanding any template against the resolver
gives the same result whether or not the declared variables are flagged
secret, and in the concrete scenario of a secret api_key overridden by
SPIN_VARIABLE_API_KEY=abc123, a field referencing it displays abc123
literally. -/
theorem c9_secret_shown_verbatim (env : Env) (vars : List VariableInfo)
    (template : String) :
    expand_template (resolveVar env vars) template
        = expand_template (resolveVar env (vars.map clearSecret)) template
      ∧ expand_template_or_error
          (resolveVar [("SPIN_VARIABLE_API_KEY", "abc123")]
            [⟨"api_key", none, true, true⟩])
          "\x7b\x7b api_key \x7d\x7d" = "abc123" := by
  constructor
  · rw [funext fun key => resolveVar_clearSecret env vars key]
  · decide

/-- C10: the expansion preview is computed exactly when the output format is
the tabular one, the manifest declares at least one variable and at least
one component is retained; under the bash format or with no variables the
run yields a non-expansion output (and, being a total function, still
succeeds). -/
theorem c10_expansion_only_table (output : OutputFormat) (env : Env)
    (vs : List VariableInfo) (components : List ComponentInfo) :
    (run output env vs components).hasExpansion = true
      ↔ (output = OutputFormat.table ∧ vs ≠ [] ∧ components ≠ []) := by
  cases output <;> cases hv : vs.isEmpty <;> cases hc : components.isEmpty <;>
    simp_all [run, RunOutput.hasExpansion, List.isEmpty_eq_false,
      List.isEmpty_eq_true]

/-- Witness for C10: the bash format never carries an expansion preview. -/
theorem c10_expansion_only_table_witness :
    (run OutputFormat.bash [] [⟨"a", some "b", false, false⟩] []).hasExpansion
      = false := by
  cases hb : (run OutputFormat.bash [] [⟨"a", some "b", false, false⟩] []).hasExpansion
  · rfl
  · exact absurd
      ((c10_expansion_only_table OutputFormat.bash []
          [⟨"a", some "b", false, false⟩] []).mp hb).1
      (by decide)
